import Mathlib

/-!
# MEV Shield protocol — shallow embedding and claim verification

This file embeds the five on-ledger components of the MEV Shield
repository in Lean 4 and proves properties about them:

* `MEVRouter` (src/unnamed/part_001, contract MEVRouter)
* `ProtectionVault` (src/contracts/src/ProtectionVault.sol)
* `TimeLock` (src/contracts/src/TimeLock.sol)
* `RiskOracle` (src/unnamed/part_002, contract RiskOracle)
* `PrivateRelay` (src/contracts/src/PrivateRelay.sol)

Modelling conventions:

* Addresses, token identifiers and 32-byte hashes are `Nat`
  (0 plays the role of the zero address / absent hash).
* `uint8` / `uint256` quantities are `Nat`; Solidity 0.8 arithmetic
  reverts on overflow, so on every successful execution the values
  coincide with unbounded `Nat` arithmetic (no claim here depends on
  a wrap-around).
* A state-changing call is a function returning `Except Err σ`
  (possibly paired with the external token world). A `require`
  failure reverts the whole call: the error carries no state, which
  is exactly the EVM storage-revert semantics.
* The ERC20 asset contracts are external collaborators whose code is
  not under src/ (only the interface import `./interfaces/IERC20.sol`
  appears). Their balances form a separate `TokenWorld` that is NOT
  rolled back by a later failure of the protocol call that moved
  them: the specification treats a completed external transfer as
  irreversible (its §6 and §7). `commit` applies a call result at the
  ledger level: the new component state on success, the unchanged
  pre-state on failure.
-/

/-- Execution context of one external call: `msg.sender`, `tx.origin`,
`block.timestamp` and `block.number`. -/
structure Ctx where
  caller : Nat
  origin : Nat
  now : Nat
  blockNum : Nat
deriving Repr, DecidableEq

/-- Deployment addresses of the token-holding contracts
(`address(this)` inside MEVRouter and ProtectionVault). -/
structure Cfg where
  routerAddr : Nat
  vaultAddr : Nat
deriving Repr, DecidableEq

/-- Failure reasons, one constructor per distinct `require` message in
the five contracts. -/
inductive Err where
  | notOwner
  | notRouter
  | notOperator
  | invalidToken
  | invalidAmount
  | transferFailed
  | insufficientBalance
  | vaultPaused
  | notPaused
  | noBalance
  | noFees
  | feeTooHigh
  | invalidRouter
  | invalidTokenIn
  | invalidTokenOut
  | invalidAmountIn
  | invalidRiskScore
  | insufficientOutput
  | outputTransferFailed
  | invalidThreshold
  | invalidOracle
  | withdrawFailed
  | invalidScore
  | scoreExists
  | invalidOperator
  | alreadyOperator
  | alreadyExecuted
  | orderCancelled
  | tooEarly
  | notOrderOwner
  | alreadyCancelled
  | invalidDelay
  | invalidTargetBlock
  | bundleExists
  | bundleNotFound
  | alreadyIncluded
deriving Repr, DecidableEq

/-- External ERC20 balances: token identifier, then holder address,
to balance. -/
def TokenWorld : Type := Nat → Nat → Nat

/-- Modelled from the spec: the ERC20 implementation is absent from
src/ (only the `IERC20` interface import exists). Per spec §6 the
asset-transfer interface reports failure by a boolean return; we
realize a transfer that succeeds exactly when the source holds enough
balance, and then moves `amt` from `src` to `dst`. A failed transfer
moves nothing. -/
def erc20Transfer (w : TokenWorld) (tok src dst amt : Nat) : Option TokenWorld :=
  if amt ≤ w tok src then
    let w1 : TokenWorld := fun t a => if t = tok ∧ a = src then w tok src - amt else w t a
    some (fun t a => if t = tok ∧ a = dst then w1 tok dst + amt else w1 t a)
  else
    none

/-- Ledger-level application of a call result: the new state when the
call committed, the unchanged pre-state when it reverted (spec §5:
a call either completes and commits, or it fails entirely). -/
def commit {σ : Type} (s : σ) : Except Err σ → σ
  | .ok s1 => s1
  | .error _ => s

/-! ## ProtectionVault (src/contracts/src/ProtectionVault.sol) -/

/-- Storage of the ProtectionVault contract. -/
structure VaultState where
  owner : Nat
  router : Nat
  protectionFee : Nat
  balances : Nat → Nat → Nat
  collectedFees : Nat → Nat
  paused : Bool

namespace ProtectionVault

/-- Constructor: `owner = msg.sender`, `router = _router`,
`protectionFee = 10`, everything else zero. -/
def init (deployer router : Nat) : VaultState :=
  { owner := deployer, router := router, protectionFee := 10
    balances := fun _ _ => 0, collectedFees := fun _ => 0, paused := false }

/-- `deposit(token, amount)` — lines 61-81. -/
def deposit (cfg : Cfg) (ctx : Ctx) (token amount : Nat) (w : TokenWorld)
    (s : VaultState) : TokenWorld × Except Err VaultState :=
  if s.paused then (w, .error .vaultPaused)
  else if token = 0 then (w, .error .invalidToken)
  else if amount = 0 then (w, .error .invalidAmount)
  else
    match erc20Transfer w token ctx.caller cfg.vaultAddr amount with
    | none => (w, .error .transferFailed)
    | some w1 =>
      let fee := amount * s.protectionFee / 10000
      let netAmount := amount - fee
      (w1, .ok { s with
        balances := fun u t =>
          if u = ctx.caller ∧ t = token then s.balances u t + netAmount
          else s.balances u t
        collectedFees := fun t =>
          if t = token then s.collectedFees t + fee else s.collectedFees t })

/-- `withdraw(token, amount)` — lines 88-102. The balance is debited
before the external push; a failed push reverts the debit. -/
def withdraw (cfg : Cfg) (ctx : Ctx) (token amount : Nat) (w : TokenWorld)
    (s : VaultState) : TokenWorld × Except Err VaultState :=
  if amount = 0 then (w, .error .invalidAmount)
  else if s.balances ctx.caller token < amount then (w, .error .insufficientBalance)
  else
    let s1 := { s with balances := fun u t =>
      if u = ctx.caller ∧ t = token then s.balances u t - amount else s.balances u t }
    match erc20Transfer w token cfg.vaultAddr ctx.caller amount with
    | none => (w, .error .transferFailed)
    | some w1 => (w1, .ok s1)

/-- `routerWithdraw(user, token, amount)` — lines 110-125. -/
def routerWithdraw (cfg : Cfg) (ctx : Ctx) (user token amount : Nat)
    (w : TokenWorld) (s : VaultState) : TokenWorld × Except Err VaultState :=
  if ctx.caller ≠ s.router then (w, .error .notRouter)
  else if s.balances user token < amount then (w, .error .insufficientBalance)
  else
    let s1 := { s with balances := fun u t =>
      if u = user ∧ t = token then s.balances u t - amount else s.balances u t }
    match erc20Transfer w token cfg.vaultAddr s.router amount with
    | none => (w, .error .transferFailed)
    | some w1 => (w1, .ok s1)

/-- `emergencyWithdraw(token)` — lines 131-145. -/
def emergencyWithdraw (cfg : Cfg) (ctx : Ctx) (token : Nat) (w : TokenWorld)
    (s : VaultState) : TokenWorld × Except Err VaultState :=
  if ¬s.paused then (w, .error .notPaused)
  else
    let amount := s.balances ctx.caller token
    if amount = 0 then (w, .error .noBalance)
    else
      let s1 := { s with balances := fun u t =>
        if u = ctx.caller ∧ t = token then 0 else s.balances u t }
      match erc20Transfer w token cfg.vaultAddr ctx.caller amount with
      | none => (w, .error .transferFailed)
      | some w1 => (w1, .ok s1)

/-- `withdrawFees(token)` — lines 151-161. -/
def withdrawFees (cfg : Cfg) (ctx : Ctx) (token : Nat) (w : TokenWorld)
    (s : VaultState) : TokenWorld × Except Err VaultState :=
  if ctx.caller ≠ s.owner then (w, .error .notOwner)
  else
    let amount := s.collectedFees token
    if amount = 0 then (w, .error .noFees)
    else
      let s1 := { s with collectedFees := fun t =>
        if t = token then 0 else s.collectedFees t }
      match erc20Transfer w token cfg.vaultAddr s.owner amount with
      | none => (w, .error .transferFailed)
      | some w1 => (w1, .ok s1)

/-- `updateProtectionFee(newFee)` — lines 167-170 (`MAX_FEE = 100`). -/
def updateProtectionFee (ctx : Ctx) (newFee : Nat) (s : VaultState) :
    Except Err VaultState :=
  if ctx.caller ≠ s.owner then .error .notOwner
  else if 100 < newFee then .error .feeTooHigh
  else .ok { s with protectionFee := newFee }

/-- `togglePause()` — lines 175-177. -/
def togglePause (ctx : Ctx) (s : VaultState) : Except Err VaultState :=
  if ctx.caller ≠ s.owner then .error .notOwner
  else .ok { s with paused := !s.paused }

/-- `updateRouter(newRouter)` — lines 183-186. -/
def updateRouter (ctx : Ctx) (newRouter : Nat) (s : VaultState) :
    Except Err VaultState :=
  if ctx.caller ≠ s.owner then .error .notOwner
  else if newRouter = 0 then .error .invalidRouter
  else .ok { s with router := newRouter }

end ProtectionVault

/-! ## MEVRouter (src/unnamed/part_001, contract MEVRouter) -/

/-- Which execution branch `protectedSwap` took (observable through the
emitted event kind: `PrivateSwapExecuted` vs plain `SwapExecuted`). -/
inductive SwapPath where
  | priv
  | pub
deriving Repr, DecidableEq

/-- Storage of the MEVRouter contract. -/
structure RouterState where
  owner : Nat
  riskOracle : Nat
  privateRoutingThreshold : Nat
  userNonce : Nat → Nat
  executedSwaps : Nat → Bool

namespace MEVRouter

/-- Constructor: `owner = msg.sender`, `riskOracle = _riskOracle`,
`privateRoutingThreshold = 70`. -/
def init (deployer riskOracle : Nat) : RouterState :=
  { owner := deployer, riskOracle := riskOracle, privateRoutingThreshold := 70
    userNonce := fun _ => 0, executedSwaps := fun _ => false }

/-- `_simulateSwap(amountIn)` — lines 155-158: 99% of the input. -/
def simulateSwap (amountIn : Nat) : Nat :=
  amountIn * 99 / 100

/-- `_executePublicSwap` — lines 114-127 (placeholder: simulation). -/
def executePublicSwap (amountIn : Nat) : Nat :=
  simulateSwap amountIn

/-- `_executePrivateSwap` — lines 133-149 (placeholder: simulation). -/
def executePrivateSwap (amountIn : Nat) : Nat :=
  simulateSwap amountIn

/-- The tail of `protectedSwap` after the path branch chose
`amountOut` — lines 96-107: the slippage check, the output push and the
successful return. -/
def swapTail (cfg : Cfg) (ctx : Ctx) (tokenOut minAmountOut amountOut : Nat)
    (p : SwapPath) (w : TokenWorld) (s : RouterState) :
    TokenWorld × Except Err (RouterState × Nat × SwapPath) :=
  if amountOut < minAmountOut then (w, .error .insufficientOutput)
  else
    match erc20Transfer w tokenOut cfg.routerAddr ctx.caller amountOut with
    | none => (w, .error .outputTransferFailed)
    | some w2 => (w2, .ok (s, amountOut, p))

/-- `protectedSwap(tokenIn, tokenOut, amountIn, minAmountOut, riskScore)`
— lines 63-108. Writes no Router storage; returns the unchanged state,
the output amount, and which path executed. The input pull is an
external transfer, so a later failure (slippage, output push) leaves
the pulled funds with the Router in the token world. -/
def protectedSwap (cfg : Cfg) (ctx : Ctx)
    (tokenIn tokenOut amountIn minAmountOut riskScore : Nat)
    (w : TokenWorld) (s : RouterState) :
    TokenWorld × Except Err (RouterState × Nat × SwapPath) :=
  if tokenIn = 0 then (w, .error .invalidTokenIn)
  else if tokenOut = 0 then (w, .error .invalidTokenOut)
  else if amountIn = 0 then (w, .error .invalidAmountIn)
  else if 100 < riskScore then (w, .error .invalidRiskScore)
  else
    match erc20Transfer w tokenIn ctx.caller cfg.routerAddr amountIn with
    | none => (w, .error .transferFailed)
    | some w1 =>
      if s.privateRoutingThreshold ≤ riskScore then
        swapTail cfg ctx tokenOut minAmountOut (executePrivateSwap amountIn)
          SwapPath.priv w1 s
      else
        swapTail cfg ctx tokenOut minAmountOut (executePublicSwap amountIn)
          SwapPath.pub w1 s

/-- `updatePrivateRoutingThreshold(newThreshold)` — lines 164-171. -/
def updatePrivateRoutingThreshold (ctx : Ctx) (newThreshold : Nat)
    (s : RouterState) : Except Err RouterState :=
  if ctx.caller ≠ s.owner then .error .notOwner
  else if 100 < newThreshold then .error .invalidThreshold
  else .ok { s with privateRoutingThreshold := newThreshold }

/-- `updateRiskOracle(newOracle)` — lines 177-180. -/
def updateRiskOracle (ctx : Ctx) (newOracle : Nat) (s : RouterState) :
    Except Err RouterState :=
  if ctx.caller ≠ s.owner then .error .notOwner
  else if newOracle = 0 then .error .invalidOracle
  else .ok { s with riskOracle := newOracle }

/-- `emergencyWithdraw(token, amount)` — lines 187-189. -/
def emergencyWithdraw (cfg : Cfg) (ctx : Ctx) (token amount : Nat)
    (w : TokenWorld) (s : RouterState) : TokenWorld × Except Err RouterState :=
  if ctx.caller ≠ s.owner then (w, .error .notOwner)
  else
    match erc20Transfer w token cfg.routerAddr s.owner amount with
    | none => (w, .error .withdrawFailed)
    | some w1 => (w1, .ok s)

end MEVRouter

/-! ## TimeLock (src/contracts/src/TimeLock.sol) -/

/-- One delayed order — struct `Order`, lines 12-21. -/
structure Order where
  user : Nat
  tokenIn : Nat
  tokenOut : Nat
  amountIn : Nat
  minAmountOut : Nat
  executeAfter : Nat
  executed : Bool
  cancelled : Bool
deriving Repr, DecidableEq

/-- The all-zero record a Solidity mapping returns for a key that was
never written. -/
def zeroOrder : Order :=
  { user := 0, tokenIn := 0, tokenOut := 0, amountIn := 0
    minAmountOut := 0, executeAfter := 0, executed := false, cancelled := false }

/-- Storage of the TimeLock contract. -/
structure TimeLockState where
  owner : Nat
  router : Nat
  defaultDelay : Nat
  orderCount : Nat
  orders : Nat → Order
  userOrders : Nat → List Nat

namespace TimeLock

/-- Constructor: `owner = msg.sender`, `router = _router`,
`defaultDelay = 60`, no orders. -/
def init (deployer router : Nat) : TimeLockState :=
  { owner := deployer, router := router, defaultDelay := 60
    orderCount := 0, orders := fun _ => zeroOrder, userOrders := fun _ => [] }

/-- `createOrder(tokenIn, tokenOut, amountIn, minAmountOut, delay)`
— lines 72-107. Returns the new state and the assigned order id. -/
def createOrder (ctx : Ctx) (tokenIn tokenOut amountIn minAmountOut delay : Nat)
    (s : TimeLockState) : Except Err (TimeLockState × Nat) :=
  if tokenIn = 0 then .error .invalidTokenIn
  else if tokenOut = 0 then .error .invalidTokenOut
  else if amountIn = 0 then .error .invalidAmountIn
  else
    let d := if delay = 0 then s.defaultDelay else delay
    let orderId := s.orderCount
    let newOrder : Order :=
      { user := ctx.caller, tokenIn := tokenIn, tokenOut := tokenOut
        amountIn := amountIn, minAmountOut := minAmountOut
        executeAfter := ctx.now + d, executed := false, cancelled := false }
    .ok ({ s with
      orderCount := orderId + 1
      orders := fun j => if j = orderId then newOrder else s.orders j
      userOrders := fun a =>
        if a = ctx.caller then s.userOrders a ++ [orderId] else s.userOrders a },
      orderId)

/-- `executeOrder(orderId)` — lines 113-128 (`onlyRouter`). Contains no
existence check: the guards read whatever record the mapping holds at
`orderId`, the zero record included. -/
def executeOrder (ctx : Ctx) (orderId : Nat) (s : TimeLockState) :
    Except Err TimeLockState :=
  if ctx.caller ≠ s.router then .error .notRouter
  else if (s.orders orderId).executed then .error .alreadyExecuted
  else if (s.orders orderId).cancelled then .error .orderCancelled
  else if ctx.now < (s.orders orderId).executeAfter then .error .tooEarly
  else .ok { s with orders := fun j =>
    if j = orderId then { s.orders orderId with executed := true } else s.orders j }

/-- `cancelOrder(orderId)` — lines 134-144. -/
def cancelOrder (ctx : Ctx) (orderId : Nat) (s : TimeLockState) :
    Except Err TimeLockState :=
  if ctx.caller ≠ (s.orders orderId).user then .error .notOrderOwner
  else if (s.orders orderId).executed then .error .alreadyExecuted
  else if (s.orders orderId).cancelled then .error .alreadyCancelled
  else .ok { s with orders := fun j =>
    if j = orderId then { s.orders orderId with cancelled := true } else s.orders j }

/-- `canExecute(orderId)` — lines 150-156, a view. -/
def canExecute (ctx : Ctx) (orderId : Nat) (s : TimeLockState) : Bool :=
  !(s.orders orderId).executed && !(s.orders orderId).cancelled
    && decide ((s.orders orderId).executeAfter ≤ ctx.now)

/-- `updateDefaultDelay(newDelay)` — lines 170-173. -/
def updateDefaultDelay (ctx : Ctx) (newDelay : Nat) (s : TimeLockState) :
    Except Err TimeLockState :=
  if ctx.caller ≠ s.owner then .error .notOwner
  else if newDelay = 0 ∨ 3600 < newDelay then .error .invalidDelay
  else .ok { s with defaultDelay := newDelay }

/-- `updateRouter(newRouter)` — lines 179-182. -/
def updateRouter (ctx : Ctx) (newRouter : Nat) (s : TimeLockState) :
    Except Err TimeLockState :=
  if ctx.caller ≠ s.owner then .error .notOwner
  else if newRouter = 0 then .error .invalidRouter
  else .ok { s with router := newRouter }

end TimeLock

/-! ## RiskOracle (src/unnamed/part_002, contract RiskOracle) -/

/-- One stored risk record — struct `RiskScore`, lines 12-16. The
zero record (`timestamp = 0`) means "no record" (the duplicate guard
and `getRiskScore` both read it that way). -/
structure RiskRecord where
  score : Nat
  timestamp : Nat
  operator : Nat
deriving Repr, DecidableEq

/-- The mapping default for a trade id never written. -/
def zeroRiskRecord : RiskRecord :=
  { score := 0, timestamp := 0, operator := 0 }

/-- Storage of the RiskOracle contract. -/
structure OracleState where
  owner : Nat
  operators : Nat → Bool
  riskScores : Nat → RiskRecord
  operatorSubmissions : Nat → Nat
  operatorAccurate : Nat → Nat

namespace RiskOracle

/-- Constructor: `owner = msg.sender`, the owner is an operator by
default. -/
def init (deployer : Nat) : OracleState :=
  { owner := deployer
    operators := fun a => a = deployer
    riskScores := fun _ => zeroRiskRecord
    operatorSubmissions := fun _ => 0
    operatorAccurate := fun _ => 0 }

/-- `submitRiskScore(txHash, score)` — lines 63-76 (`onlyOperator`).
Guard order as in the source: operator role, then `score <= 100`,
then the duplicate check `riskScores[txHash].timestamp == 0`. -/
def submitRiskScore (ctx : Ctx) (txHash score : Nat) (s : OracleState) :
    Except Err OracleState :=
  if s.operators ctx.caller = false then .error .notOperator
  else if 100 < score then .error .invalidScore
  else if (s.riskScores txHash).timestamp ≠ 0 then .error .scoreExists
  else .ok { s with
    riskScores := fun h =>
      if h = txHash then { score := score, timestamp := ctx.now, operator := ctx.caller }
      else s.riskScores h
    operatorSubmissions := fun a =>
      if a = ctx.caller then s.operatorSubmissions a + 1 else s.operatorSubmissions a }

/-- `getRiskScore(txHash)` — lines 82-85, a view. -/
def getRiskScore (txHash : Nat) (s : OracleState) : Nat × Nat :=
  ((s.riskScores txHash).score, (s.riskScores txHash).timestamp)

/-- `updateOperatorAccuracy(operator, wasAccurate)` — lines 92-96
(`onlyOwner`). Increments the accurate counter when `wasAccurate`,
with no check against the submission counter. -/
def updateOperatorAccuracy (ctx : Ctx) (operator : Nat) (wasAccurate : Bool)
    (s : OracleState) : Except Err OracleState :=
  if ctx.caller ≠ s.owner then .error .notOwner
  else if wasAccurate then
    .ok { s with operatorAccurate := fun a =>
      if a = operator then s.operatorAccurate a + 1 else s.operatorAccurate a }
  else .ok s

/-- `getOperatorReputation(operator)` — lines 102-107, a view. -/
def getOperatorReputation (operator : Nat) (s : OracleState) : Nat :=
  if s.operatorSubmissions operator = 0 then 0
  else s.operatorAccurate operator * 100 / s.operatorSubmissions operator

/-- `addOperator(operator)` — lines 113-119. -/
def addOperator (ctx : Ctx) (operator : Nat) (s : OracleState) :
    Except Err OracleState :=
  if ctx.caller ≠ s.owner then .error .notOwner
  else if operator = 0 then .error .invalidOperator
  else if s.operators operator then .error .alreadyOperator
  else .ok { s with operators := fun a => if a = operator then true else s.operators a }

/-- `removeOperator(operator)` — lines 125-130. -/
def removeOperator (ctx : Ctx) (operator : Nat) (s : OracleState) :
    Except Err OracleState :=
  if ctx.caller ≠ s.owner then .error .notOwner
  else if s.operators operator = false then .error .notOperator
  else .ok { s with operators := fun a => if a = operator then false else s.operators a }

end RiskOracle

/-! ## PrivateRelay (src/contracts/src/PrivateRelay.sol) -/

/-- One bundle record — struct `Bundle`, lines 12-18. The zero record
(`timestamp = 0`) means "no record". -/
structure Bundle where
  bundleHash : Nat
  submitter : Nat
  blockNumber : Nat
  timestamp : Nat
  included : Bool
deriving Repr, DecidableEq

/-- The mapping default for a bundle hash never written. -/
def zeroBundle : Bundle :=
  { bundleHash := 0, submitter := 0, blockNumber := 0, timestamp := 0, included := false }

/-- Storage of the PrivateRelay contract. -/
structure RelayState where
  owner : Nat
  router : Nat
  bundles : Nat → Bundle
  blockBundles : Nat → List Nat
  totalBundlesSubmitted : Nat
  totalBundlesIncluded : Nat

namespace PrivateRelay

/-- Constructor: `owner = msg.sender`, `router = _router`. -/
def init (deployer router : Nat) : RelayState :=
  { owner := deployer, router := router
    bundles := fun _ => zeroBundle, blockBundles := fun _ => []
    totalBundlesSubmitted := 0, totalBundlesIncluded := 0 }

/-- `submitBundle(bundleHash, targetBlock)` — lines 65-81
(`onlyRouter`). Stores `tx.origin` as submitter. -/
def submitBundle (ctx : Ctx) (bundleHash targetBlock : Nat) (s : RelayState) :
    Except Err RelayState :=
  if ctx.caller ≠ s.router then .error .notRouter
  else if targetBlock ≤ ctx.blockNum then .error .invalidTargetBlock
  else if (s.bundles bundleHash).timestamp ≠ 0 then .error .bundleExists
  else .ok { s with
    bundles := fun h =>
      if h = bundleHash then
        { bundleHash := bundleHash, submitter := ctx.origin
          blockNumber := targetBlock, timestamp := ctx.now, included := false }
      else s.bundles h
    blockBundles := fun b =>
      if b = targetBlock then s.blockBundles b ++ [bundleHash] else s.blockBundles b
    totalBundlesSubmitted := s.totalBundlesSubmitted + 1 }

/-- `markBundleIncluded(bundleHash)` — lines 87-96 (`onlyOwner`). -/
def markBundleIncluded (ctx : Ctx) (bundleHash : Nat) (s : RelayState) :
    Except Err RelayState :=
  if ctx.caller ≠ s.owner then .error .notOwner
  else if (s.bundles bundleHash).timestamp = 0 then .error .bundleNotFound
  else if (s.bundles bundleHash).included then .error .alreadyIncluded
  else .ok { s with
    bundles := fun h =>
      if h = bundleHash then { s.bundles bundleHash with included := true }
      else s.bundles h
    totalBundlesIncluded := s.totalBundlesIncluded + 1 }

/-- `markBundleFailed(bundleHash, reason)` — lines 103-108
(`onlyOwner`). Emits an event only; the successful result is the
unchanged input state. The reason string is irrelevant to state and
modelled as an opaque number. -/
def markBundleFailed (ctx : Ctx) (bundleHash : Nat) (_reason : Nat)
    (s : RelayState) : Except Err RelayState :=
  if ctx.caller ≠ s.owner then .error .notOwner
  else if (s.bundles bundleHash).timestamp = 0 then .error .bundleNotFound
  else .ok s

/-- `wasBundleIncluded(bundleHash)` — lines 122-124, a view. -/
def wasBundleIncluded (bundleHash : Nat) (s : RelayState) : Bool :=
  (s.bundles bundleHash).included

/-- `getInclusionRate()` — lines 129-132, a view. -/
def getInclusionRate (s : RelayState) : Nat :=
  if s.totalBundlesSubmitted = 0 then 0
  else s.totalBundlesIncluded * 100 / s.totalBundlesSubmitted

/-- `updateRouter(newRouter)` — lines 138-141. -/
def updateRouter (ctx : Ctx) (newRouter : Nat) (s : RelayState) :
    Except Err RelayState :=
  if ctx.caller ≠ s.owner then .error .notOwner
  else if newRouter = 0 then .error .invalidRouter
  else .ok { s with router := newRouter }

end PrivateRelay

/-! ## The protocol as one ledger: operations and dispatch -/

/-- The combined storage of the five components. -/
structure Comps where
  router : RouterState
  vault : VaultState
  lock : TimeLockState
  oracle : OracleState
  relay : RelayState

/-- The five freshly deployed components (constructor arguments:
deployer and wiring addresses of each). -/
def initComps (dR oR dV rV dT rT dO dP rP : Nat) : Comps :=
  { router := MEVRouter.init dR oR
    vault := ProtectionVault.init dV rV
    lock := TimeLock.init dT rT
    oracle := RiskOracle.init dO
    relay := PrivateRelay.init dP rP }

/-- Every state-changing external call of the five components. -/
inductive Op where
  | protect (tokenIn tokenOut amountIn minAmountOut riskScore : Nat)
  | updateThreshold (newThreshold : Nat)
  | updateOracle (newOracle : Nat)
  | routerEmergencyWithdraw (token amount : Nat)
  | deposit (token amount : Nat)
  | withdraw (token amount : Nat)
  | routerWithdraw (user token amount : Nat)
  | vaultEmergencyWithdraw (token : Nat)
  | withdrawFees (token : Nat)
  | updateProtectionFee (newFee : Nat)
  | togglePause
  | vaultUpdateRouter (newRouter : Nat)
  | createOrder (tokenIn tokenOut amountIn minAmountOut delay : Nat)
  | executeOrder (orderId : Nat)
  | cancelOrder (orderId : Nat)
  | updateDefaultDelay (newDelay : Nat)
  | lockUpdateRouter (newRouter : Nat)
  | submitScore (txHash score : Nat)
  | reportAccuracy (operator : Nat) (wasAccurate : Bool)
  | addOperator (operator : Nat)
  | removeOperator (operator : Nat)
  | submitBundle (bundleHash targetBlock : Nat)
  | markIncluded (bundleHash : Nat)
  | markFailed (bundleHash reason : Nat)
  | relayUpdateRouter (newRouter : Nat)

/-- Lift a MEVRouter result into the combined state. -/
def liftR (c : Comps) : TokenWorld × Except Err RouterState →
    TokenWorld × Except Err Comps
  | (w, .ok s) => (w, .ok { c with router := s })
  | (w, .error e) => (w, .error e)

/-- Lift a `protectedSwap` result (its output amount and path are not
part of storage). -/
def liftRP (c : Comps) : TokenWorld × Except Err (RouterState × Nat × SwapPath) →
    TokenWorld × Except Err Comps
  | (w, .ok (s, _, _)) => (w, .ok { c with router := s })
  | (w, .error e) => (w, .error e)

/-- Lift a `createOrder` result (its returned order id is not storage). -/
def liftLC (c : Comps) (w : TokenWorld) : Except Err (TimeLockState × Nat) →
    TokenWorld × Except Err Comps
  | .ok (s, _) => (w, .ok { c with lock := s })
  | .error e => (w, .error e)

/-- Lift a ProtectionVault result into the combined state. -/
def liftV (c : Comps) : TokenWorld × Except Err VaultState →
    TokenWorld × Except Err Comps
  | (w, .ok s) => (w, .ok { c with vault := s })
  | (w, .error e) => (w, .error e)

/-- Lift a token-free ProtectionVault result. -/
def liftV0 (c : Comps) (w : TokenWorld) : Except Err VaultState →
    TokenWorld × Except Err Comps
  | .ok s => (w, .ok { c with vault := s })
  | .error e => (w, .error e)

/-- Lift a TimeLock result. -/
def liftL (c : Comps) (w : TokenWorld) : Except Err TimeLockState →
    TokenWorld × Except Err Comps
  | .ok s => (w, .ok { c with lock := s })
  | .error e => (w, .error e)

/-- Lift a RiskOracle result. -/
def liftO (c : Comps) (w : TokenWorld) : Except Err OracleState →
    TokenWorld × Except Err Comps
  | .ok s => (w, .ok { c with oracle := s })
  | .error e => (w, .error e)

/-- Lift a PrivateRelay result. -/
def liftP (c : Comps) (w : TokenWorld) : Except Err RelayState →
    TokenWorld × Except Err Comps
  | .ok s => (w, .ok { c with relay := s })
  | .error e => (w, .error e)

/-- Dispatch one external call to the component it targets. The token
world is returned separately from the `Except`: external transfers
already performed persist even when the call then reverts. -/
def exec (cfg : Cfg) (ctx : Ctx) (op : Op) (w : TokenWorld) (c : Comps) :
    TokenWorld × Except Err Comps :=
  match op with
  | .protect tIn tOut aIn minOut risk =>
    liftRP c (MEVRouter.protectedSwap cfg ctx tIn tOut aIn minOut risk w c.router)
  | .updateThreshold t => liftR c (w, MEVRouter.updatePrivateRoutingThreshold ctx t c.router)
  | .updateOracle a => liftR c (w, MEVRouter.updateRiskOracle ctx a c.router)
  | .routerEmergencyWithdraw tok amt =>
    liftR c (MEVRouter.emergencyWithdraw cfg ctx tok amt w c.router)
  | .deposit tok amt => liftV c (ProtectionVault.deposit cfg ctx tok amt w c.vault)
  | .withdraw tok amt => liftV c (ProtectionVault.withdraw cfg ctx tok amt w c.vault)
  | .routerWithdraw u tok amt =>
    liftV c (ProtectionVault.routerWithdraw cfg ctx u tok amt w c.vault)
  | .vaultEmergencyWithdraw tok =>
    liftV c (ProtectionVault.emergencyWithdraw cfg ctx tok w c.vault)
  | .withdrawFees tok => liftV c (ProtectionVault.withdrawFees cfg ctx tok w c.vault)
  | .updateProtectionFee f => liftV0 c w (ProtectionVault.updateProtectionFee ctx f c.vault)
  | .togglePause => liftV0 c w (ProtectionVault.togglePause ctx c.vault)
  | .vaultUpdateRouter a => liftV0 c w (ProtectionVault.updateRouter ctx a c.vault)
  | .createOrder tIn tOut aIn minOut d =>
    liftLC c w (TimeLock.createOrder ctx tIn tOut aIn minOut d c.lock)
  | .executeOrder i => liftL c w (TimeLock.executeOrder ctx i c.lock)
  | .cancelOrder i => liftL c w (TimeLock.cancelOrder ctx i c.lock)
  | .updateDefaultDelay d => liftL c w (TimeLock.updateDefaultDelay ctx d c.lock)
  | .lockUpdateRouter a => liftL c w (TimeLock.updateRouter ctx a c.lock)
  | .submitScore h sc => liftO c w (RiskOracle.submitRiskScore ctx h sc c.oracle)
  | .reportAccuracy a b => liftO c w (RiskOracle.updateOperatorAccuracy ctx a b c.oracle)
  | .addOperator a => liftO c w (RiskOracle.addOperator ctx a c.oracle)
  | .removeOperator a => liftO c w (RiskOracle.removeOperator ctx a c.oracle)
  | .submitBundle h tb => liftP c w (PrivateRelay.submitBundle ctx h tb c.relay)
  | .markIncluded h => liftP c w (PrivateRelay.markBundleIncluded ctx h c.relay)
  | .markFailed h r => liftP c w (PrivateRelay.markBundleFailed ctx h r c.relay)
  | .relayUpdateRouter a => liftP c w (PrivateRelay.updateRouter ctx a c.relay)

/-- Combined states reachable from deployment by any sequence of
successfully committed calls (a failed call leaves the state where it
was, so only committed steps matter for reachability). -/
inductive Reach (cfg : Cfg) : Comps → Prop where
  | init (dR oR dV rV dT rT dO dP rP : Nat) :
      Reach cfg (initComps dR oR dV rV dT rT dO dP rP)
  | step {c c1 : Comps} (ctx : Ctx) (op : Op) (w w1 : TokenWorld)
      (prev : Reach cfg c) (h : exec cfg ctx op w c = (w1, .ok c1)) :
      Reach cfg c1

/-! ## Concrete fixtures for witnesses -/

/-- Router deployed at address 10, vault at address 11. -/
def cfg0 : Cfg := ⟨10, 11⟩

/-- A token world where every holder owns plenty of every token. -/
def w0 : TokenWorld := fun _ _ => 1000000

/-- A call from user 1 (who deployed everything in `comps0`). -/
def ctxUser : Ctx := ⟨1, 1, 5, 50⟩

/-- A call arriving from the router address 10, originated by user 2. -/
def ctxRouter : Ctx := ⟨10, 2, 5, 50⟩

/-- Freshly deployed protocol: user 1 deployed every contract, the
oracle lives at 6, the router at 10 (wired into vault, lock, relay). -/
def comps0 : Comps := initComps 1 6 1 10 1 10 1 1 10

/-! ## Claim C1 — atomicity of every operation -/

/-- Claim C1: for every state-changing operation of any of the five
components and every pre-state, if the call fails then the ledger-level
post-state of the components equals the pre-state exactly: the revert
discards every storage mutation of the failing call, so no balance
change, counter increment or record write survives. (Transfers already
executed on the external ERC20 collaborators are outside the five
components and are the subject of C2.) -/
theorem c1_failed_call_rolls_back (cfg : Cfg) (ctx : Ctx) (op : Op)
    (w w1 : TokenWorld) (c : Comps) (e : Err)
    (h : exec cfg ctx op w c = (w1, Except.error e)) :
    commit c (exec cfg ctx op w c).2 = c := by
  rw [h]
  rfl

/-- Witness for C1: a concrete failing call (withdrawing amount 0)
leaves the deployed protocol state untouched. -/
theorem c1_failed_call_rolls_back_witness :
    exec cfg0 ctxUser (Op.withdraw 1 0) w0 comps0
      = (w0, Except.error Err.invalidAmount) ∧
    commit comps0 (exec cfg0 ctxUser (Op.withdraw 1 0) w0 comps0).2 = comps0 :=
  ⟨rfl, c1_failed_call_rolls_back cfg0 ctxUser (Op.withdraw 1 0) w0 w0 comps0
    Err.invalidAmount rfl⟩

/-! ## Claim C5 — deposit fee arithmetic -/

/-- Claim C5: every successful `deposit(token, amount)` credits exactly
`amount - amount * feeBps / 10000` (integer division, i.e. the floor)
to the caller and adds exactly `amount - credited` to the fee ledger of
that token; no rounding loss is unaccounted for. -/
theorem c5_deposit_fee_exact (cfg : Cfg) (ctx : Ctx) (token amount : Nat)
    (w : TokenWorld) (s : VaultState) (w1 : TokenWorld) (s1 : VaultState)
    (hfee : s.protectionFee ≤ 10000)
    (h : ProtectionVault.deposit cfg ctx token amount w s = (w1, Except.ok s1)) :
    s1.balances ctx.caller token
      = s.balances ctx.caller token + (amount - amount * s.protectionFee / 10000) ∧
    s1.collectedFees token
      = s.collectedFees token
        + (amount - (amount - amount * s.protectionFee / 10000)) := by
  have hmul : amount * s.protectionFee ≤ amount * 10000 :=
    Nat.mul_le_mul_left _ hfee
  have hfle : amount * s.protectionFee / 10000 ≤ amount := by omega
  unfold ProtectionVault.deposit at h
  split at h
  · simp at h
  split at h
  · simp at h
  split at h
  · simp at h
  split at h
  · simp at h
  · rename_i w2 heq
    simp only [Prod.mk.injEq, Except.ok.injEq] at h
    obtain ⟨-, hs⟩ := h
    subst hs
    refine ⟨by simp, ?_⟩
    simp only
    rw [if_pos trivial]
    omega

/-- Witness for C5: depositing 1000 units of token 2 at the default
10 bps credits 999 and collects 1. -/
theorem c5_deposit_fee_exact_witness :
    (commit (ProtectionVault.init 1 10)
        (ProtectionVault.deposit cfg0 ctxUser 2 1000 w0 (ProtectionVault.init 1 10)).2).balances 1 2
      = 999 ∧
    (commit (ProtectionVault.init 1 10)
        (ProtectionVault.deposit cfg0 ctxUser 2 1000 w0 (ProtectionVault.init 1 10)).2).collectedFees 2
      = 1 := by
  have h := c5_deposit_fee_exact cfg0 ctxUser 2 1000 w0 (ProtectionVault.init 1 10)
      (ProtectionVault.deposit cfg0 ctxUser 2 1000 w0 (ProtectionVault.init 1 10)).1
      (commit (ProtectionVault.init 1 10)
        (ProtectionVault.deposit cfg0 ctxUser 2 1000 w0 (ProtectionVault.init 1 10)).2)
      (by decide) rfl
  simpa [ProtectionVault.init, ctxUser] using h

/-! ## Claim C7 — routing decision and placeholder output -/

/-- Claim C7: every successful `protectedSwap` takes the private path
exactly when the risk score reaches the configured threshold and the
public path otherwise, returns `amountIn * 99 / 100` on both paths, and
writes no Router storage. -/
theorem c7_routing_and_output (cfg : Cfg) (ctx : Ctx)
    (tIn tOut aIn minOut risk : Nat) (w : TokenWorld) (s : RouterState)
    (w1 : TokenWorld) (s1 : RouterState) (out : Nat) (p : SwapPath)
    (h : MEVRouter.protectedSwap cfg ctx tIn tOut aIn minOut risk w s
          = (w1, Except.ok (s1, out, p))) :
    out = aIn * 99 / 100 ∧
    p = (if s.privateRoutingThreshold ≤ risk then SwapPath.priv else SwapPath.pub) ∧
    s1 = s := by
  have tail : ∀ (aOut : Nat) (q : SwapPath) (wA : TokenWorld),
      MEVRouter.swapTail cfg ctx tOut minOut aOut q wA s = (w1, Except.ok (s1, out, p)) →
      out = aOut ∧ p = q ∧ s1 = s := by
    intro aOut q wA hT
    unfold MEVRouter.swapTail at hT
    split at hT
    · simp at hT
    split at hT
    · simp at hT
    · simp only [Prod.mk.injEq, Except.ok.injEq] at hT
      obtain ⟨-, hs, hout, hp⟩ := hT
      exact ⟨hout.symm, hp.symm, hs.symm⟩
  unfold MEVRouter.protectedSwap at h
  split at h
  · simp at h
  split at h
  · simp at h
  split at h
  · simp at h
  split at h
  · simp at h
  split at h
  · simp at h
  · rename_i w2 heq
    split at h
    · rename_i hthr
      obtain ⟨hout, hp, hs⟩ := tail _ _ _ h
      refine ⟨?_, ?_, hs⟩
      · simpa [MEVRouter.executePrivateSwap, MEVRouter.simulateSwap] using hout
      · simp [hp, if_pos hthr]
    · rename_i hthr
      obtain ⟨hout, hp, hs⟩ := tail _ _ _ h
      refine ⟨?_, ?_, hs⟩
      · simpa [MEVRouter.executePublicSwap, MEVRouter.simulateSwap] using hout
      · simp [hp, if_neg hthr]

/-- Witness for C7: `protect(1, 2, 100, 95, 85)` under threshold 70
routes privately and returns 99 (passing `minAmountOut = 95`); the same
call with risk score 30 routes publicly and also returns 99. -/
theorem c7_routing_and_output_witness :
    (MEVRouter.protectedSwap cfg0 ctxUser 1 2 100 95 85 w0 (MEVRouter.init 1 6)).2
      = Except.ok (MEVRouter.init 1 6, 99, SwapPath.priv) ∧
    (MEVRouter.protectedSwap cfg0 ctxUser 1 2 100 95 30 w0 (MEVRouter.init 1 6)).2
      = Except.ok (MEVRouter.init 1 6, 99, SwapPath.pub) ∧
    99 = 100 * 99 / 100 := by
  refine ⟨rfl, rfl, ?_⟩
  exact (c7_routing_and_output cfg0 ctxUser 1 2 100 95 85 w0 (MEVRouter.init 1 6)
    (MEVRouter.protectedSwap cfg0 ctxUser 1 2 100 95 85 w0 (MEVRouter.init 1 6)).1
    (MEVRouter.init 1 6) 99 SwapPath.priv rfl).1

/-! ## Claim C2 — slippage failure strands the pulled-in funds -/

/-- A sufficiently funded `erc20Transfer` succeeds and moves exactly
`amt` from `src` to `dst`, touching no other balance. Shared helper. -/
theorem erc20Transfer_spec {w : TokenWorld} {tok src dst amt : Nat}
    (h : amt ≤ w tok src) :
    ∃ w1, erc20Transfer w tok src dst amt = some w1 ∧
      (src ≠ dst → w1 tok src = w tok src - amt ∧ w1 tok dst = w tok dst + amt) ∧
      (∀ t a, t ≠ tok ∨ (a ≠ src ∧ a ≠ dst) → w1 t a = w t a) := by
  unfold erc20Transfer
  rw [if_pos h]
  refine ⟨_, rfl, fun hne => ⟨?_, ?_⟩, fun t a hta => ?_⟩
  · simp [hne]
  · simp [Ne.symm hne]
  · rcases hta with ht | ⟨ha1, ha2⟩
    · simp [ht]
    · simp [ha1, ha2]

/-- Claim C2: when the guards pass, the input pull succeeds, and the
simulated output `amountIn * 99 / 100` is below `minAmountOut`, the
call fails with the slippage error (`MEVRouter: insufficient output
amount`) and the pulled-in funds stay stranded: in the resulting token
world the caller holds `amountIn` less of the input asset and the
Router holds `amountIn` more, with no refund. -/
theorem c2_slippage_strands_funds (cfg : Cfg) (ctx : Ctx)
    (tIn tOut aIn minOut risk : Nat) (w : TokenWorld) (s : RouterState)
    (h1 : tIn ≠ 0) (h2 : tOut ≠ 0) (h3 : aIn ≠ 0) (h4 : risk ≤ 100)
    (h5 : aIn ≤ w tIn ctx.caller)
    (h6 : aIn * 99 / 100 < minOut)
    (h7 : ctx.caller ≠ cfg.routerAddr) :
    (MEVRouter.protectedSwap cfg ctx tIn tOut aIn minOut risk w s).2
      = Except.error Err.insufficientOutput ∧
    (MEVRouter.protectedSwap cfg ctx tIn tOut aIn minOut risk w s).1 tIn ctx.caller
      = w tIn ctx.caller - aIn ∧
    (MEVRouter.protectedSwap cfg ctx tIn tOut aIn minOut risk w s).1 tIn cfg.routerAddr
      = w tIn cfg.routerAddr + aIn := by
  obtain ⟨wP, hpull, hmoved, -⟩ := erc20Transfer_spec h5
  have hvals := hmoved h7
  unfold MEVRouter.protectedSwap
  rw [if_neg h1, if_neg h2, if_neg h3, if_neg (by omega : ¬100 < risk), hpull]
  have htail : ∀ q : SwapPath,
      MEVRouter.swapTail cfg ctx tOut minOut (aIn * 99 / 100) q wP s
        = (wP, Except.error Err.insufficientOutput) := by
    intro q
    unfold MEVRouter.swapTail
    rw [if_pos h6]
  split
  · rename_i heq
    exact absurd heq (by simp)
  · rename_i wQ heq
    obtain rfl : wP = wQ := by injection heq
    split
    · rw [show MEVRouter.executePrivateSwap aIn = aIn * 99 / 100 from rfl, htail]
      exact ⟨rfl, hvals.1, hvals.2⟩
    · rw [show MEVRouter.executePublicSwap aIn = aIn * 99 / 100 from rfl, htail]
      exact ⟨rfl, hvals.1, hvals.2⟩

/-- Witness for C2: user 1 swaps 100 of token 1 with `minAmountOut`
200 — the simulated output 99 is too low, the call fails with the
slippage error, and the 100 pulled-in units sit with the Router. -/
theorem c2_slippage_strands_funds_witness :
    (MEVRouter.protectedSwap cfg0 ctxUser 1 2 100 200 85 w0 (MEVRouter.init 1 6)).2
      = Except.error Err.insufficientOutput ∧
    (MEVRouter.protectedSwap cfg0 ctxUser 1 2 100 200 85 w0 (MEVRouter.init 1 6)).1 1 1
      = 1000000 - 100 ∧
    (MEVRouter.protectedSwap cfg0 ctxUser 1 2 100 200 85 w0 (MEVRouter.init 1 6)).1 1 10
      = 1000000 + 100 :=
  c2_slippage_strands_funds cfg0 ctxUser 1 2 100 200 85 w0 (MEVRouter.init 1 6)
    (by decide) (by decide) (by decide) (by decide) (by decide) (by decide) (by decide)

/-! ## Claim C8 — markBundleFailed is effect-free -/

/-- Claim C8: for an existing record, `markBundleFailed` succeeds and
returns the state completely unchanged (the record keeps its
`included` flag, both aggregate counters and the per-block index stay
as they were, so the bundle remains pending); for an absent record the
call fails with the not-found error. (`onlyOwner` gates both cases.) -/
theorem c8_markFailed_pure (ctx : Ctx) (bundleHash reason : Nat) (s : RelayState) :
    (ctx.caller = s.owner → (s.bundles bundleHash).timestamp ≠ 0 →
      PrivateRelay.markBundleFailed ctx bundleHash reason s = Except.ok s) ∧
    (ctx.caller = s.owner → (s.bundles bundleHash).timestamp = 0 →
      PrivateRelay.markBundleFailed ctx bundleHash reason s
        = Except.error Err.bundleNotFound) := by
  constructor
  · intro howner hex
    unfold PrivateRelay.markBundleFailed
    rw [if_neg (by simp [howner]), if_neg hex]
  · intro howner habs
    unfold PrivateRelay.markBundleFailed
    rw [if_neg (by simp [howner]), if_pos habs]

/-- One bundle (hash 9, target block 100) submitted through the router
to the freshly deployed relay. -/
def relay1 : RelayState :=
  commit (PrivateRelay.init 1 10)
    (PrivateRelay.submitBundle ctxRouter 9 100 (PrivateRelay.init 1 10))

/-- Witness for C8: with bundle 9 on record, the owner marking it
failed leaves the state identical, and marking the absent bundle 8
failed reports not-found. -/
theorem c8_markFailed_pure_witness :
    PrivateRelay.markBundleFailed ctxUser 9 0 relay1 = Except.ok relay1 ∧
    PrivateRelay.markBundleFailed ctxUser 8 0 relay1
      = Except.error Err.bundleNotFound :=
  ⟨(c8_markFailed_pure ctxUser 9 0 relay1).1 rfl (by decide),
   (c8_markFailed_pure ctxUser 8 0 relay1).2 rfl (by decide)⟩

/-! ## Claim C9 — executeOrder has no existence check -/

/-- A TimeLock state is well formed when every slot at or above
`orderCount` still holds the never-written zero record (true of every
state reachable from deployment, since `createOrder` writes at
`orderCount` and increments it). -/
def TLWellFormed (s : TimeLockState) : Prop :=
  ∀ i, s.orderCount ≤ i → s.orders i = zeroOrder

/-- Claim C9: `executeOrder` performs no existence check, so for an
order id that was never created the zero-valued record passes all
three guards (not executed, not cancelled, `executeAfter = 0 ≤ now`):
a router call succeeds and marks the nonexistent order executed, and
`canExecute` returns true for it. -/
theorem c9_execute_nonexistent (ctx : Ctx) (i : Nat) (s : TimeLockState)
    (hwf : TLWellFormed s) (hi : s.orderCount ≤ i)
    (hr : ctx.caller = s.router) :
    TimeLock.executeOrder ctx i s
      = Except.ok { s with orders := fun j =>
          if j = i then { zeroOrder with executed := true } else s.orders j } ∧
    TimeLock.canExecute ctx i s = true := by
  have h0 := hwf i hi
  constructor
  · unfold TimeLock.executeOrder
    rw [h0]
    rw [if_neg (by simp [hr]), if_neg (by simp [zeroOrder]),
      if_neg (by simp [zeroOrder]), if_neg (by simp [zeroOrder])]
  · unfold TimeLock.canExecute
    rw [h0]
    simp [zeroOrder]

/-- The freshly deployed TimeLock: owner 1, router 10, no orders. -/
def lock0 : TimeLockState := TimeLock.init 1 10

/-- Witness for C9: on the freshly deployed TimeLock (no orders), the
router executing order 5 succeeds and marks it executed. -/
theorem c9_execute_nonexistent_witness :
    TimeLock.executeOrder ctxRouter 5 lock0
      = Except.ok { lock0 with orders := fun j =>
          if j = 5 then { zeroOrder with executed := true } else lock0.orders j } ∧
    TimeLock.canExecute ctxRouter 5 lock0 = true :=
  c9_execute_nonexistent ctxRouter 5 lock0
    (fun _ _ => rfl) (Nat.zero_le 5) rfl

/-! ## Claim C6 — submitRiskScore is write-once (corrected) -/

/-- The oracle after user 1 (the deploying owner, hence a default
operator) submitted score 50 for trade id 7 at time 5. -/
def oracleA : OracleState :=
  commit (RiskOracle.init 1)
    (RiskOracle.submitRiskScore ctxUser 7 50 (RiskOracle.init 1))

/-- Counterexample to C6 as stated: a record for trade id 7 exists and
caller 1 is an operator, yet a second submission with score 150 fails
with `RiskOracle: invalid score`, not with the duplicate-record error —
the `score <= 100` guard runs before the duplicate check, so the
failure reason is not `DuplicateRecord` regardless of the score. -/
theorem c6_counterexample :
    RiskOracle.submitRiskScore ctxUser 7 50 (RiskOracle.init 1)
      = Except.ok oracleA ∧
    (oracleA.riskScores 7).timestamp ≠ 0 ∧
    oracleA.operators 1 = true ∧
    RiskOracle.submitRiskScore ctxUser 7 150 oracleA
      = Except.error Err.invalidScore ∧
    Err.invalidScore ≠ Err.scoreExists :=
  ⟨rfl, by decide, by decide, rfl, by decide⟩

/-- Claim C6 as amended: a second `submitRiskScore` for a trade id
whose record exists always fails and leaves the stored record and all
reputation counters unchanged, whoever calls it; when the caller is an
operator the failure is the duplicate-record error for any valid score
(≤ 100), and the invalid-score error for a score above 100. -/
theorem c6_amended_write_once (ctx : Ctx) (txHash score : Nat) (s : OracleState)
    (hex : (s.riskScores txHash).timestamp ≠ 0) :
    commit s (RiskOracle.submitRiskScore ctx txHash score s) = s ∧
    (∀ s1, RiskOracle.submitRiskScore ctx txHash score s ≠ Except.ok s1) ∧
    (s.operators ctx.caller = true → score ≤ 100 →
      RiskOracle.submitRiskScore ctx txHash score s = Except.error Err.scoreExists) ∧
    (s.operators ctx.caller = true → 100 < score →
      RiskOracle.submitRiskScore ctx txHash score s = Except.error Err.invalidScore) := by
  have hres : RiskOracle.submitRiskScore ctx txHash score s
      = (if s.operators ctx.caller = false then Except.error Err.notOperator
         else if 100 < score then Except.error Err.invalidScore
         else Except.error Err.scoreExists) := by
    unfold RiskOracle.submitRiskScore
    rw [if_pos hex]
  rw [hres]
  refine ⟨?_, ?_, ?_, ?_⟩
  · split
    · rfl
    split
    · rfl
    · rfl
  · intro s1
    split
    · simp
    split
    · simp
    · simp
  · intro hop hsc
    rw [if_neg (by simp [hop]), if_neg (by omega)]
  · intro hop hsc
    rw [if_neg (by simp [hop]), if_pos hsc]

/-- Witness for the amended C6: operator 1 re-submitting trade id 7
with the valid score 60 gets the duplicate-record failure and the
state is unchanged. -/
theorem c6_amended_write_once_witness :
    commit oracleA (RiskOracle.submitRiskScore ctxUser 7 60 oracleA) = oracleA ∧
    RiskOracle.submitRiskScore ctxUser 7 60 oracleA
      = Except.error Err.scoreExists :=
  ⟨(c6_amended_write_once ctxUser 7 60 oracleA (by decide)).1,
   (c6_amended_write_once ctxUser 7 60 oracleA (by decide)).2.2.1 (by decide) (by decide)⟩

/-! ## Claim C3 — reputation bounds (corrected) -/

/-- `oracleA` after the owner reported one accurate prediction for
operator 1. -/
def oracleB : OracleState :=
  commit oracleA (RiskOracle.updateOperatorAccuracy ctxUser 1 true oracleA)

/-- `oracleB` after a second accuracy report for operator 1: now
2 accurate predictions against 1 submission. -/
def oracleC : OracleState :=
  commit oracleB (RiskOracle.updateOperatorAccuracy ctxUser 1 true oracleB)

/-- Counterexample to C3 as stated: from a fresh deployment, one
submission by operator 1 followed by two owner accuracy reports for
operator 1 is a reachable call sequence after which
`getOperatorReputation(1)` is 200, outside [0,100] — the accuracy
counter is not bounded by the submission counter. -/
theorem c3_counterexample :
    RiskOracle.submitRiskScore ctxUser 7 50 (RiskOracle.init 1)
      = Except.ok oracleA ∧
    RiskOracle.updateOperatorAccuracy ctxUser 1 true oracleA
      = Except.ok oracleB ∧
    RiskOracle.updateOperatorAccuracy ctxUser 1 true oracleB
      = Except.ok oracleC ∧
    RiskOracle.getOperatorReputation 1 oracleC = 200 :=
  ⟨rfl, rfl, rfl, by decide⟩

/-- Claim C3 as amended: `getOperatorReputation` is 0 for an operator
with no submissions, and stays in [0,100] in every state where the
accurate counter does not exceed the submission counter; the code does
not enforce that bound, so owner over-reporting (see the
counterexample) can push it above 100. -/
theorem c3_amended_reputation_bounds (s : OracleState) (a : Nat) :
    (s.operatorSubmissions a = 0 → RiskOracle.getOperatorReputation a s = 0) ∧
    (s.operatorAccurate a ≤ s.operatorSubmissions a →
      RiskOracle.getOperatorReputation a s ≤ 100) := by
  constructor
  · intro h0
    unfold RiskOracle.getOperatorReputation
    rw [if_pos h0]
  · intro hle
    unfold RiskOracle.getOperatorReputation
    split
    · exact Nat.zero_le 100
    · rename_i hne
      have hmul : s.operatorAccurate a * 100 ≤ s.operatorSubmissions a * 100 :=
        Nat.mul_le_mul_right _ hle
      have hpos : 0 < s.operatorSubmissions a := Nat.pos_of_ne_zero hne
      calc s.operatorAccurate a * 100 / s.operatorSubmissions a
          ≤ s.operatorSubmissions a * 100 / s.operatorSubmissions a :=
            Nat.div_le_div_right hmul
        _ ≤ 100 := by
            rw [Nat.mul_comm, Nat.mul_div_assoc 100 (Nat.dvd_refl _)]
            simp [Nat.div_self hpos]

/-- Witness for the amended C3: at deployment, operator 1 has no
submissions, reputation 0, within the bound. -/
theorem c3_amended_reputation_bounds_witness :
    RiskOracle.getOperatorReputation 1 (RiskOracle.init 1) = 0 ∧
    RiskOracle.getOperatorReputation 1 (RiskOracle.init 1) ≤ 100 :=
  ⟨(c3_amended_reputation_bounds (RiskOracle.init 1) 1).1 rfl,
   (c3_amended_reputation_bounds (RiskOracle.init 1) 1).2 (Nat.le_refl 0)⟩

/-! ## Successful-dispatch extraction lemmas -/

/-- A committed router call changes only the router component. -/
theorem liftR_ok {c c1 : Comps} {w1 : TokenWorld}
    {p : TokenWorld × Except Err RouterState}
    (h : liftR c p = (w1, Except.ok c1)) :
    p.2 = Except.ok c1.router ∧ c1.vault = c.vault ∧ c1.lock = c.lock ∧
      c1.oracle = c.oracle ∧ c1.relay = c.relay := by
  rcases p with ⟨w2, r⟩
  cases r with
  | ok v =>
    simp only [liftR, Prod.mk.injEq, Except.ok.injEq] at h
    obtain ⟨-, hc⟩ := h
    subst hc
    exact ⟨rfl, rfl, rfl, rfl, rfl⟩
  | error e => simp [liftR] at h

/-- A committed `protectedSwap` changes only the router component. -/
theorem liftRP_ok {c c1 : Comps} {w1 : TokenWorld}
    {p : TokenWorld × Except Err (RouterState × Nat × SwapPath)}
    (h : liftRP c p = (w1, Except.ok c1)) :
    (∃ out q, p.2 = Except.ok (c1.router, out, q)) ∧ c1.vault = c.vault ∧
      c1.lock = c.lock ∧ c1.oracle = c.oracle ∧ c1.relay = c.relay := by
  rcases p with ⟨w2, r⟩
  cases r with
  | ok v =>
    rcases v with ⟨s', out, q⟩
    simp only [liftRP, Prod.mk.injEq, Except.ok.injEq] at h
    obtain ⟨-, hc⟩ := h
    subst hc
    exact ⟨⟨out, q, rfl⟩, rfl, rfl, rfl, rfl⟩
  | error e => simp [liftRP] at h

/-- A committed vault call changes only the vault component. -/
theorem liftV_ok {c c1 : Comps} {w1 : TokenWorld}
    {p : TokenWorld × Except Err VaultState}
    (h : liftV c p = (w1, Except.ok c1)) :
    p.2 = Except.ok c1.vault ∧ c1.router = c.router ∧ c1.lock = c.lock ∧
      c1.oracle = c.oracle ∧ c1.relay = c.relay := by
  rcases p with ⟨w2, r⟩
  cases r with
  | ok v =>
    simp only [liftV, Prod.mk.injEq, Except.ok.injEq] at h
    obtain ⟨-, hc⟩ := h
    subst hc
    exact ⟨rfl, rfl, rfl, rfl, rfl⟩
  | error e => simp [liftV] at h

/-- A committed token-free vault call changes only the vault component. -/
theorem liftV0_ok {c c1 : Comps} {w w1 : TokenWorld} {r : Except Err VaultState}
    (h : liftV0 c w r = (w1, Except.ok c1)) :
    r = Except.ok c1.vault ∧ c1.router = c.router ∧ c1.lock = c.lock ∧
      c1.oracle = c.oracle ∧ c1.relay = c.relay := by
  cases r with
  | ok v =>
    simp only [liftV0, Prod.mk.injEq, Except.ok.injEq] at h
    obtain ⟨-, hc⟩ := h
    subst hc
    exact ⟨rfl, rfl, rfl, rfl, rfl⟩
  | error e => simp [liftV0] at h

/-- A committed TimeLock call changes only the lock component. -/
theorem liftL_ok {c c1 : Comps} {w w1 : TokenWorld} {r : Except Err TimeLockState}
    (h : liftL c w r = (w1, Except.ok c1)) :
    r = Except.ok c1.lock ∧ c1.router = c.router ∧ c1.vault = c.vault ∧
      c1.oracle = c.oracle ∧ c1.relay = c.relay := by
  cases r with
  | ok v =>
    simp only [liftL, Prod.mk.injEq, Except.ok.injEq] at h
    obtain ⟨-, hc⟩ := h
    subst hc
    exact ⟨rfl, rfl, rfl, rfl, rfl⟩
  | error e => simp [liftL] at h

/-- A committed `createOrder` changes only the lock component. -/
theorem liftLC_ok {c c1 : Comps} {w w1 : TokenWorld}
    {r : Except Err (TimeLockState × Nat)}
    (h : liftLC c w r = (w1, Except.ok c1)) :
    (∃ oid, r = Except.ok (c1.lock, oid)) ∧ c1.router = c.router ∧
      c1.vault = c.vault ∧ c1.oracle = c.oracle ∧ c1.relay = c.relay := by
  cases r with
  | ok v =>
    rcases v with ⟨s', oid⟩
    simp only [liftLC, Prod.mk.injEq, Except.ok.injEq] at h
    obtain ⟨-, hc⟩ := h
    subst hc
    exact ⟨⟨oid, rfl⟩, rfl, rfl, rfl, rfl⟩
  | error e => simp [liftLC] at h

/-- A committed oracle call changes only the oracle component. -/
theorem liftO_ok {c c1 : Comps} {w w1 : TokenWorld} {r : Except Err OracleState}
    (h : liftO c w r = (w1, Except.ok c1)) :
    r = Except.ok c1.oracle ∧ c1.router = c.router ∧ c1.vault = c.vault ∧
      c1.lock = c.lock ∧ c1.relay = c.relay := by
  cases r with
  | ok v =>
    simp only [liftO, Prod.mk.injEq, Except.ok.injEq] at h
    obtain ⟨-, hc⟩ := h
    subst hc
    exact ⟨rfl, rfl, rfl, rfl, rfl⟩
  | error e => simp [liftO] at h

/-- A committed relay call changes only the relay component. -/
theorem liftP_ok {c c1 : Comps} {w w1 : TokenWorld} {r : Except Err RelayState}
    (h : liftP c w r = (w1, Except.ok c1)) :
    r = Except.ok c1.relay ∧ c1.router = c.router ∧ c1.vault = c.vault ∧
      c1.lock = c.lock ∧ c1.oracle = c.oracle := by
  cases r with
  | ok v =>
    simp only [liftP, Prod.mk.injEq, Except.ok.injEq] at h
    obtain ⟨-, hc⟩ := h
    subst hc
    exact ⟨rfl, rfl, rfl, rfl, rfl⟩
  | error e => simp [liftP] at h

/-! ## Claim C4 — DelayedOrder lifecycle -/

/-- Characterization of a successful `executeOrder`: the guards that
held before and the exact shape of the post-state. -/
theorem executeOrder_ok {ctx : Ctx} {i : Nat} {s s1 : TimeLockState}
    (h : TimeLock.executeOrder ctx i s = Except.ok s1) :
    ctx.caller = s.router ∧ (s.orders i).executed = false ∧
    (s.orders i).cancelled = false ∧ (s.orders i).executeAfter ≤ ctx.now ∧
    s1 = { s with orders := fun j =>
      if j = i then { s.orders i with executed := true } else s.orders j } := by
  unfold TimeLock.executeOrder at h
  split at h
  · simp at h
  split at h
  · simp at h
  split at h
  · simp at h
  split at h
  · simp at h
  · rename_i hr he hc ht
    simp only [Except.ok.injEq] at h
    push_neg at hr ht
    exact ⟨hr, by simpa using he, by simpa using hc, ht, h.symm⟩

/-- Characterization of a successful `cancelOrder`. -/
theorem cancelOrder_ok {ctx : Ctx} {i : Nat} {s s1 : TimeLockState}
    (h : TimeLock.cancelOrder ctx i s = Except.ok s1) :
    ctx.caller = (s.orders i).user ∧ (s.orders i).executed = false ∧
    (s.orders i).cancelled = false ∧
    s1 = { s with orders := fun j =>
      if j = i then { s.orders i with cancelled := true } else s.orders j } := by
  unfold TimeLock.cancelOrder at h
  split at h
  · simp at h
  split at h
  · simp at h
  split at h
  · simp at h
  · rename_i hu he hc
    simp only [Except.ok.injEq] at h
    push_neg at hu
    exact ⟨hu, by simpa using he, by simpa using hc, h.symm⟩

/-- Characterization of a successful `createOrder`: a fresh pending
record at slot `orderCount`, all other slots untouched. -/
theorem createOrder_ok {ctx : Ctx} {tIn tOut aIn minOut d : Nat}
    {s s1 : TimeLockState} {oid : Nat}
    (h : TimeLock.createOrder ctx tIn tOut aIn minOut d s = Except.ok (s1, oid)) :
    oid = s.orderCount ∧ s1.orderCount = s.orderCount + 1 ∧
    (∀ j, j ≠ s.orderCount → s1.orders j = s.orders j) ∧
    (s1.orders s.orderCount).executed = false ∧
    (s1.orders s.orderCount).cancelled = false := by
  unfold TimeLock.createOrder at h
  split at h
  · simp at h
  split at h
  · simp at h
  split at h
  · simp at h
  · simp only [Except.ok.injEq, Prod.mk.injEq] at h
    obtain ⟨hs, hoid⟩ := h
    subst hs
    refine ⟨hoid.symm, rfl, fun j hj => ?_, ?_, ?_⟩
    · simp [hj]
    · simp
    · simp

/-- No order record ever has both terminal flags set. -/
def TLNoBoth (t : TimeLockState) : Prop :=
  ∀ i, (t.orders i).executed = false ∨ (t.orders i).cancelled = false

/-- The three order-touching TimeLock calls preserve `TLNoBoth`;
executing requires not-cancelled and cancelling requires not-executed,
so no record ever acquires both flags. -/
theorem executeOrder_preserves_TLNoBoth {ctx : Ctx} {i : Nat}
    {s s1 : TimeLockState} (h : TimeLock.executeOrder ctx i s = Except.ok s1)
    (hP : TLNoBoth s) : TLNoBoth s1 := by
  obtain ⟨-, -, hc, -, hs⟩ := executeOrder_ok h
  subst hs
  intro j
  by_cases hj : j = i
  · subst hj
    right
    simpa using hc
  · simpa [hj] using hP j

/-- `cancelOrder` preserves `TLNoBoth`. -/
theorem cancelOrder_preserves_TLNoBoth {ctx : Ctx} {i : Nat}
    {s s1 : TimeLockState} (h : TimeLock.cancelOrder ctx i s = Except.ok s1)
    (hP : TLNoBoth s) : TLNoBoth s1 := by
  obtain ⟨-, he, -, hs⟩ := cancelOrder_ok h
  subst hs
  intro j
  by_cases hj : j = i
  · subst hj
    left
    simpa using he
  · simpa [hj] using hP j

/-- `createOrder` preserves `TLNoBoth`. -/
theorem createOrder_preserves_TLNoBoth {ctx : Ctx} {tIn tOut aIn minOut d : Nat}
    {s s1 : TimeLockState} {oid : Nat}
    (h : TimeLock.createOrder ctx tIn tOut aIn minOut d s = Except.ok (s1, oid))
    (hP : TLNoBoth s) : TLNoBoth s1 := by
  obtain ⟨-, -, hframe, hex, -⟩ := createOrder_ok h
  intro j
  by_cases hj : j = s.orderCount
  · subst hj
    left
    exact hex
  · rw [hframe j hj]
    exact hP j

/-- Every committed protocol call preserves `TLNoBoth`. -/
theorem exec_preserves_TLNoBoth {cfg : Cfg} {ctx : Ctx} {op : Op}
    {w w1 : TokenWorld} {c c1 : Comps}
    (h : exec cfg ctx op w c = (w1, Except.ok c1)) (hP : TLNoBoth c.lock) :
    TLNoBoth c1.lock := by
  cases op with
  | protect a b d e f => simp only [exec] at h; rw [(liftRP_ok h).2.2.1]; exact hP
  | updateThreshold a => simp only [exec] at h; rw [(liftR_ok h).2.2.1]; exact hP
  | updateOracle a => simp only [exec] at h; rw [(liftR_ok h).2.2.1]; exact hP
  | routerEmergencyWithdraw a b =>
    simp only [exec] at h; rw [(liftR_ok h).2.2.1]; exact hP
  | deposit a b => simp only [exec] at h; rw [(liftV_ok h).2.2.1]; exact hP
  | withdraw a b => simp only [exec] at h; rw [(liftV_ok h).2.2.1]; exact hP
  | routerWithdraw a b d => simp only [exec] at h; rw [(liftV_ok h).2.2.1]; exact hP
  | vaultEmergencyWithdraw a => simp only [exec] at h; rw [(liftV_ok h).2.2.1]; exact hP
  | withdrawFees a => simp only [exec] at h; rw [(liftV_ok h).2.2.1]; exact hP
  | updateProtectionFee a => simp only [exec] at h; rw [(liftV0_ok h).2.2.1]; exact hP
  | togglePause => simp only [exec] at h; rw [(liftV0_ok h).2.2.1]; exact hP
  | vaultUpdateRouter a => simp only [exec] at h; rw [(liftV0_ok h).2.2.1]; exact hP
  | createOrder a b d e f =>
    simp only [exec] at h
    obtain ⟨⟨oid, hr⟩, -⟩ := liftLC_ok h
    exact createOrder_preserves_TLNoBoth hr hP
  | executeOrder i =>
    simp only [exec] at h
    exact executeOrder_preserves_TLNoBoth (liftL_ok h).1 hP
  | cancelOrder i =>
    simp only [exec] at h
    exact cancelOrder_preserves_TLNoBoth (liftL_ok h).1 hP
  | updateDefaultDelay a =>
    simp only [exec] at h
    have hr := (liftL_ok h).1
    unfold TimeLock.updateDefaultDelay at hr
    split at hr
    · simp at hr
    split at hr
    · simp at hr
    · simp only [Except.ok.injEq] at hr
      rw [← hr]
      exact hP
  | lockUpdateRouter a =>
    simp only [exec] at h
    have hr := (liftL_ok h).1
    unfold TimeLock.updateRouter at hr
    split at hr
    · simp at hr
    split at hr
    · simp at hr
    · simp only [Except.ok.injEq] at hr
      rw [← hr]
      exact hP
  | submitScore a b => simp only [exec] at h; rw [(liftO_ok h).2.2.2.1]; exact hP
  | reportAccuracy a b => simp only [exec] at h; rw [(liftO_ok h).2.2.2.1]; exact hP
  | addOperator a => simp only [exec] at h; rw [(liftO_ok h).2.2.2.1]; exact hP
  | removeOperator a => simp only [exec] at h; rw [(liftO_ok h).2.2.2.1]; exact hP
  | submitBundle a b => simp only [exec] at h; rw [(liftP_ok h).2.2.2.1]; exact hP
  | markIncluded a => simp only [exec] at h; rw [(liftP_ok h).2.2.2.1]; exact hP
  | markFailed a b => simp only [exec] at h; rw [(liftP_ok h).2.2.2.1]; exact hP
  | relayUpdateRouter a => simp only [exec] at h; rw [(liftP_ok h).2.2.2.1]; exact hP

/-- Every reachable protocol state satisfies `TLNoBoth`. -/
theorem reach_TLNoBoth {cfg : Cfg} {c : Comps} (h : Reach cfg c) :
    TLNoBoth c.lock := by
  induction h with
  | init dR oR dV rV dT rT dO dP rP => intro i; left; rfl
  | step ctx op w w1 prev hstep ih => exact exec_preserves_TLNoBoth hstep ih

/-- Claim C4: a delayed order reaches `executed` only through a
router-role `executeOrder` when `now` has reached `executeAfter` and it
was neither executed nor cancelled; it reaches `cancelled` only through
`cancelOrder` by its owning user while still pending; each success
touches no other order, no other TimeLock call rewrites an existing
order, a terminal order makes both calls fail with the state unchanged
at the ledger, and on every reachable state the two terminal flags are
mutually exclusive. -/
theorem c4_order_lifecycle (cfg : Cfg) (ctx : Ctx) (i : Nat) (s : TimeLockState) :
    (∀ s1, TimeLock.executeOrder ctx i s = Except.ok s1 →
      ctx.caller = s.router ∧ (s.orders i).executed = false ∧
      (s.orders i).cancelled = false ∧ (s.orders i).executeAfter ≤ ctx.now ∧
      (s1.orders i).executed = true ∧ (s1.orders i).cancelled = false ∧
      (∀ j, j ≠ i → s1.orders j = s.orders j)) ∧
    (∀ s1, TimeLock.cancelOrder ctx i s = Except.ok s1 →
      ctx.caller = (s.orders i).user ∧ (s.orders i).executed = false ∧
      (s.orders i).cancelled = false ∧
      (s1.orders i).cancelled = true ∧ (s1.orders i).executed = false ∧
      (∀ j, j ≠ i → s1.orders j = s.orders j)) ∧
    ((s.orders i).executed = true ∨ (s.orders i).cancelled = true →
      commit s (TimeLock.executeOrder ctx i s) = s ∧
      commit s (TimeLock.cancelOrder ctx i s) = s ∧
      (∀ s1, TimeLock.executeOrder ctx i s ≠ Except.ok s1) ∧
      (∀ s1, TimeLock.cancelOrder ctx i s ≠ Except.ok s1)) ∧
    (∀ tIn tOut aIn minOut d s1 oid, i < s.orderCount →
      TimeLock.createOrder ctx tIn tOut aIn minOut d s = Except.ok (s1, oid) →
      s1.orders i = s.orders i) ∧
    (∀ d s1, TimeLock.updateDefaultDelay ctx d s = Except.ok s1 →
      s1.orders = s.orders) ∧
    (∀ a s1, TimeLock.updateRouter ctx a s = Except.ok s1 →
      s1.orders = s.orders) ∧
    (∀ c, Reach cfg c →
      ¬((c.lock.orders i).executed = true ∧ (c.lock.orders i).cancelled = true)) := by
  refine ⟨?_, ?_, ?_, ?_, ?_, ?_, ?_⟩
  · intro s1 h
    obtain ⟨hr, he, hc, ht, hs⟩ := executeOrder_ok h
    subst hs
    exact ⟨hr, he, hc, ht, by simp, by simpa using hc, fun j hj => by simp [hj]⟩
  · intro s1 h
    obtain ⟨hu, he, hc, hs⟩ := cancelOrder_ok h
    subst hs
    exact ⟨hu, he, hc, by simp, by simpa using he, fun j hj => by simp [hj]⟩
  · intro hterm
    have hexecFail : ∀ s1, TimeLock.executeOrder ctx i s ≠ Except.ok s1 := by
      intro s1 h
      obtain ⟨-, he, hc, -, -⟩ := executeOrder_ok h
      rcases hterm with ht | ht
      · rw [ht] at he
        exact absurd he (by simp)
      · rw [ht] at hc
        exact absurd hc (by simp)
    have hcancelFail : ∀ s1, TimeLock.cancelOrder ctx i s ≠ Except.ok s1 := by
      intro s1 h
      obtain ⟨-, he, hc, -⟩ := cancelOrder_ok h
      rcases hterm with ht | ht
      · rw [ht] at he
        exact absurd he (by simp)
      · rw [ht] at hc
        exact absurd hc (by simp)
    refine ⟨?_, ?_, hexecFail, hcancelFail⟩
    · cases hr : TimeLock.executeOrder ctx i s with
      | ok s1 => exact absurd hr (hexecFail s1)
      | error e => rfl
    · cases hr : TimeLock.cancelOrder ctx i s with
      | ok s1 => exact absurd hr (hcancelFail s1)
      | error e => rfl
  · intro tIn tOut aIn minOut d s1 oid hi h
    obtain ⟨-, -, hframe, -, -⟩ := createOrder_ok h
    exact hframe i (by omega)
  · intro d s1 h
    unfold TimeLock.updateDefaultDelay at h
    split at h
    · simp at h
    split at h
    · simp at h
    · simp only [Except.ok.injEq] at h
      rw [← h]
  · intro a s1 h
    unfold TimeLock.updateRouter at h
    split at h
    · simp at h
    split at h
    · simp at h
    · simp only [Except.ok.injEq] at h
      rw [← h]
  · intro c hc
    rintro ⟨h1, h2⟩
    rcases reach_TLNoBoth hc i with h | h
    · rw [h1] at h
      exact absurd h (by simp)
    · rw [h2] at h
      exact absurd h (by simp)

/-- The TimeLock after user 1 created order 0 (delay defaulted to 60,
so `executeAfter = 65`). -/
def lockA : TimeLockState :=
  match TimeLock.createOrder ctxUser 1 2 100 90 0 lock0 with
  | .ok (s, _) => s
  | .error _ => lock0

/-- A router call at time 100, past the eligibility time 65. -/
def ctxLate : Ctx := ⟨10, 2, 100, 60⟩

/-- `lockA` after the router executed order 0. -/
def lockB : TimeLockState :=
  commit lockA (TimeLock.executeOrder ctxLate 0 lockA)

/-- Witness for C4: order 0, once executed, is terminal — repeated
execute and cancel attempts leave the state exactly as it was. -/
theorem c4_order_lifecycle_witness :
    (lockB.orders 0).executed = true ∧
    commit lockB (TimeLock.executeOrder ctxLate 0 lockB) = lockB ∧
    commit lockB (TimeLock.cancelOrder ctxUser 0 lockB) = lockB :=
  ⟨by decide,
   ((c4_order_lifecycle cfg0 ctxLate 0 lockB).2.2.1 (Or.inl (by decide))).1,
   ((c4_order_lifecycle cfg0 ctxUser 0 lockB).2.2.1 (Or.inl (by decide))).2.1⟩

/-! ## Claim C10 — inclusion counters and inclusion rate -/

/-- Characterization of a successful `submitBundle`. -/
theorem submitBundle_ok {ctx : Ctx} {bh tb : Nat} {s s1 : RelayState}
    (hok : PrivateRelay.submitBundle ctx bh tb s = Except.ok s1) :
    ctx.caller = s.router ∧ ctx.blockNum < tb ∧ (s.bundles bh).timestamp = 0 ∧
    s1 = { s with
      bundles := fun h =>
        if h = bh then
          { bundleHash := bh, submitter := ctx.origin, blockNumber := tb
            timestamp := ctx.now, included := false }
        else s.bundles h
      blockBundles := fun b =>
        if b = tb then s.blockBundles b ++ [bh] else s.blockBundles b
      totalBundlesSubmitted := s.totalBundlesSubmitted + 1 } := by
  unfold PrivateRelay.submitBundle at hok
  split at hok
  · simp at hok
  split at hok
  · simp at hok
  split at hok
  · simp at hok
  · rename_i hr htb hts
    simp only [Except.ok.injEq] at hok
    push_neg at hr htb hts
    exact ⟨hr, by omega, hts, hok.symm⟩

/-- Characterization of a successful `markBundleIncluded`. -/
theorem markIncluded_ok {ctx : Ctx} {bh : Nat} {s s1 : RelayState}
    (hok : PrivateRelay.markBundleIncluded ctx bh s = Except.ok s1) :
    ctx.caller = s.owner ∧ (s.bundles bh).timestamp ≠ 0 ∧
    (s.bundles bh).included = false ∧
    s1 = { s with
      bundles := fun h =>
        if h = bh then { s.bundles bh with included := true } else s.bundles h
      totalBundlesIncluded := s.totalBundlesIncluded + 1 } := by
  unfold PrivateRelay.markBundleIncluded at hok
  split at hok
  · simp at hok
  split at hok
  · simp at hok
  split at hok
  · simp at hok
  · rename_i hr hts hinc
    simp only [Except.ok.injEq] at hok
    push_neg at hr
    exact ⟨hr, hts, by simpa using hinc, hok.symm⟩

/-- Characterization of a successful `markBundleFailed`: identity. -/
theorem markFailed_ok {ctx : Ctx} {bh r : Nat} {s s1 : RelayState}
    (hok : PrivateRelay.markBundleFailed ctx bh r s = Except.ok s1) : s1 = s := by
  unfold PrivateRelay.markBundleFailed at hok
  split at hok
  · simp at hok
  split at hok
  · simp at hok
  · simp only [Except.ok.injEq] at hok
    exact hok.symm

/-- Characterization of a successful relay `updateRouter`. -/
theorem relayUpdateRouter_ok {ctx : Ctx} {a : Nat} {s s1 : RelayState}
    (hok : PrivateRelay.updateRouter ctx a s = Except.ok s1) :
    s1.bundles = s.bundles ∧
    s1.totalBundlesSubmitted = s.totalBundlesSubmitted ∧
    s1.totalBundlesIncluded = s.totalBundlesIncluded := by
  unfold PrivateRelay.updateRouter at hok
  split at hok
  · simp at hok
  split at hok
  · simp at hok
  · simp only [Except.ok.injEq] at hok
    rw [← hok]
    exact ⟨rfl, rfl, rfl⟩

/-- Counting helper: flipping one listed element of the predicate from
false to true raises the filter count by exactly one. -/
theorem length_filter_flip {l : List Nat} {p q : Nat → Bool} {a : Nat}
    (hnd : l.Nodup) (ha : a ∈ l) (hpa : p a = false) (hqa : q a = true)
    (hother : ∀ x, x ≠ a → q x = p x) :
    (l.filter q).length = (l.filter p).length + 1 := by
  induction l with
  | nil => cases ha
  | cons b t ih =>
    rw [List.nodup_cons] at hnd
    rcases List.mem_cons.mp ha with hab | hat
    · subst hab
      have hcongr : t.filter q = t.filter p :=
        List.filter_congr (fun x hx => hother x (fun hxa => hnd.1 (hxa ▸ hx)))
      rw [List.filter_cons, List.filter_cons, hpa, hqa]
      simp [hcongr]
    · have hba : b ≠ a := fun hba => hnd.1 (hba ▸ hat)
      have ihr := ih hnd.2 hat
      rw [List.filter_cons, List.filter_cons, hother b hba]
      cases hpb : p b
      · simpa [hpb] using ihr
      · simp only [hpb, if_true, List.length_cons]
        omega

/-- The relay counting invariant: some duplicate-free list `hs`
enumerates exactly the existing bundle records, the included counter
counts the records whose flag is set, and the list is no longer than
the submission counter. -/
def RelayInv (s : RelayState) : Prop :=
  ∃ hs : List Nat, hs.Nodup ∧
    (∀ h, (s.bundles h).timestamp ≠ 0 ↔ h ∈ hs) ∧
    (hs.filter (fun h => (s.bundles h).included)).length = s.totalBundlesIncluded ∧
    hs.length ≤ s.totalBundlesSubmitted

/-- A fresh relay satisfies the invariant. -/
theorem relayInit_RelayInv (d r : Nat) : RelayInv (PrivateRelay.init d r) :=
  ⟨[], List.nodup_nil, fun h => by simp [PrivateRelay.init, zeroBundle],
    rfl, Nat.le_refl 0⟩

/-- `submitBundle` preserves the relay invariant. -/
theorem submitBundle_preserves_RelayInv {ctx : Ctx} {bh tb : Nat}
    {s s1 : RelayState}
    (hok : PrivateRelay.submitBundle ctx bh tb s = Except.ok s1)
    (hI : RelayInv s) : RelayInv s1 := by
  obtain ⟨hs, hnd, hmem, hcnt, hlen⟩ := hI
  obtain ⟨-, -, hts, hs1⟩ := submitBundle_ok hok
  subst hs1
  have hnotin : bh ∉ hs := fun hin => ((hmem bh).mpr hin) hts
  by_cases hnow : ctx.now = 0
  · refine ⟨hs, hnd, fun h => ?_, ?_, ?_⟩
    · by_cases hhb : h = bh
      · subst hhb
        simp [hnow, hnotin]
      · simpa [hhb] using hmem h
    · rw [show (hs.filter fun h =>
          (if h = bh then
            { bundleHash := bh, submitter := ctx.origin, blockNumber := tb
              timestamp := ctx.now, included := false }
           else s.bundles h).included)
          = hs.filter (fun h => (s.bundles h).included) from
        List.filter_congr (fun x hx => by
          have : x ≠ bh := fun hxb => hnotin (hxb ▸ hx)
          simp [this])]
      exact hcnt
    · exact Nat.le_succ_of_le hlen
  · refine ⟨bh :: hs, List.nodup_cons.mpr ⟨hnotin, hnd⟩, fun h => ?_, ?_, ?_⟩
    · by_cases hhb : h = bh
      · subst hhb
        simp [hnow]
      · simp only [List.mem_cons]
        simpa [hhb] using (hmem h).trans (by simp [hhb])
    · rw [List.filter_cons]
      simp only [if_pos rfl, Bool.if_true_left]
      rw [show (hs.filter fun h =>
          (if h = bh then
            { bundleHash := bh, submitter := ctx.origin, blockNumber := tb
              timestamp := ctx.now, included := false }
           else s.bundles h).included)
          = hs.filter (fun h => (s.bundles h).included) from
        List.filter_congr (fun x hx => by
          have : x ≠ bh := fun hxb => hnotin (hxb ▸ hx)
          simp [this])]
      simpa using hcnt
    · simpa using Nat.succ_le_succ hlen

/-- `markBundleIncluded` preserves the relay invariant. -/
theorem markIncluded_preserves_RelayInv {ctx : Ctx} {bh : Nat}
    {s s1 : RelayState}
    (hok : PrivateRelay.markBundleIncluded ctx bh s = Except.ok s1)
    (hI : RelayInv s) : RelayInv s1 := by
  obtain ⟨hs, hnd, hmem, hcnt, hlen⟩ := hI
  obtain ⟨-, hts, hinc, hs1⟩ := markIncluded_ok hok
  subst hs1
  have hin : bh ∈ hs := (hmem bh).mp hts
  refine ⟨hs, hnd, fun h => ?_, ?_, hlen⟩
  · by_cases hhb : h = bh
    · subst hhb
      simpa using hmem h
    · simpa [hhb] using hmem h
  · have hflip := @length_filter_flip hs (fun h => (s.bundles h).included)
      (fun h =>
        (if h = bh then { s.bundles bh with included := true } else s.bundles h).included)
      bh hnd hin hinc (by simp) (fun x hx => by simp [hx])
    show (hs.filter fun h =>
        (if h = bh then { s.bundles bh with included := true } else s.bundles h).included).length
      = s.totalBundlesIncluded + 1
    rw [hflip, hcnt]

/-- Every committed protocol call preserves the relay invariant. -/
theorem exec_preserves_RelayInv {cfg : Cfg} {ctx : Ctx} {op : Op}
    {w w1 : TokenWorld} {c c1 : Comps}
    (h : exec cfg ctx op w c = (w1, Except.ok c1)) (hP : RelayInv c.relay) :
    RelayInv c1.relay := by
  cases op with
  | protect a b d e f => simp only [exec] at h; rw [(liftRP_ok h).2.2.2.2]; exact hP
  | updateThreshold a => simp only [exec] at h; rw [(liftR_ok h).2.2.2.2]; exact hP
  | updateOracle a => simp only [exec] at h; rw [(liftR_ok h).2.2.2.2]; exact hP
  | routerEmergencyWithdraw a b =>
    simp only [exec] at h; rw [(liftR_ok h).2.2.2.2]; exact hP
  | deposit a b => simp only [exec] at h; rw [(liftV_ok h).2.2.2.2]; exact hP
  | withdraw a b => simp only [exec] at h; rw [(liftV_ok h).2.2.2.2]; exact hP
  | routerWithdraw a b d => simp only [exec] at h; rw [(liftV_ok h).2.2.2.2]; exact hP
  | vaultEmergencyWithdraw a =>
    simp only [exec] at h; rw [(liftV_ok h).2.2.2.2]; exact hP
  | withdrawFees a => simp only [exec] at h; rw [(liftV_ok h).2.2.2.2]; exact hP
  | updateProtectionFee a =>
    simp only [exec] at h; rw [(liftV0_ok h).2.2.2.2]; exact hP
  | togglePause => simp only [exec] at h; rw [(liftV0_ok h).2.2.2.2]; exact hP
  | vaultUpdateRouter a =>
    simp only [exec] at h; rw [(liftV0_ok h).2.2.2.2]; exact hP
  | createOrder a b d e f =>
    simp only [exec] at h; rw [(liftLC_ok h).2.2.2.2]; exact hP
  | executeOrder i => simp only [exec] at h; rw [(liftL_ok h).2.2.2.2]; exact hP
  | cancelOrder i => simp only [exec] at h; rw [(liftL_ok h).2.2.2.2]; exact hP
  | updateDefaultDelay a =>
    simp only [exec] at h; rw [(liftL_ok h).2.2.2.2]; exact hP
  | lockUpdateRouter a =>
    simp only [exec] at h; rw [(liftL_ok h).2.2.2.2]; exact hP
  | submitScore a b => simp only [exec] at h; rw [(liftO_ok h).2.2.2.2]; exact hP
  | reportAccuracy a b =>
    simp only [exec] at h; rw [(liftO_ok h).2.2.2.2]; exact hP
  | addOperator a => simp only [exec] at h; rw [(liftO_ok h).2.2.2.2]; exact hP
  | removeOperator a => simp only [exec] at h; rw [(liftO_ok h).2.2.2.2]; exact hP
  | submitBundle a b =>
    simp only [exec] at h
    exact submitBundle_preserves_RelayInv (liftP_ok h).1 hP
  | markIncluded a =>
    simp only [exec] at h
    exact markIncluded_preserves_RelayInv (liftP_ok h).1 hP
  | markFailed a b =>
    simp only [exec] at h
    rw [markFailed_ok (liftP_ok h).1]
    exact hP
  | relayUpdateRouter a =>
    simp only [exec] at h
    obtain ⟨hb, hsub, hinc⟩ := relayUpdateRouter_ok (liftP_ok h).1
    obtain ⟨hs, hnd, hmem, hcnt, hlen⟩ := hP
    exact ⟨hs, hnd, fun x => by rw [hb]; exact hmem x,
      by rw [hb, hinc]; exact hcnt, by rw [hsub]; exact hlen⟩

/-- Every reachable protocol state satisfies the relay invariant. -/
theorem reach_RelayInv {cfg : Cfg} {c : Comps} (h : Reach cfg c) :
    RelayInv c.relay := by
  induction h with
  | init dR oR dV rV dT rT dO dP rP => exact relayInit_RelayInv dP rP
  | step ctx op w w1 prev hstep ih => exact exec_preserves_RelayInv hstep ih

/-- Claim C10: in every reachable state the included counter never
exceeds the submitted counter — `submitBundle` increments only the
submitted counter and `markBundleIncluded` increments the included
counter only for an existing, not-yet-included record — and therefore
`getInclusionRate()` is always in [0,100]. -/
theorem c10_inclusion_rate_bounded (cfg : Cfg) (c : Comps)
    (hreach : Reach cfg c) :
    c.relay.totalBundlesIncluded ≤ c.relay.totalBundlesSubmitted ∧
    PrivateRelay.getInclusionRate c.relay ≤ 100 ∧
    (∀ ctx bh tb s1, PrivateRelay.submitBundle ctx bh tb c.relay = Except.ok s1 →
      s1.totalBundlesSubmitted = c.relay.totalBundlesSubmitted + 1 ∧
      s1.totalBundlesIncluded = c.relay.totalBundlesIncluded) ∧
    (∀ ctx bh s1, PrivateRelay.markBundleIncluded ctx bh c.relay = Except.ok s1 →
      s1.totalBundlesIncluded = c.relay.totalBundlesIncluded + 1 ∧
      s1.totalBundlesSubmitted = c.relay.totalBundlesSubmitted ∧
      (c.relay.bundles bh).timestamp ≠ 0 ∧
      (c.relay.bundles bh).included = false) := by
  have hBound : c.relay.totalBundlesIncluded ≤ c.relay.totalBundlesSubmitted := by
    obtain ⟨hs, hnd, hmem, hcnt, hlen⟩ := reach_RelayInv hreach
    calc c.relay.totalBundlesIncluded
        = (hs.filter (fun h => (c.relay.bundles h).included)).length := hcnt.symm
      _ ≤ hs.length := List.length_filter_le _ _
      _ ≤ c.relay.totalBundlesSubmitted := hlen
  refine ⟨hBound, ?_, ?_, ?_⟩
  · unfold PrivateRelay.getInclusionRate
    split
    · exact Nat.zero_le 100
    · rename_i hne
      have hpos : 0 < c.relay.totalBundlesSubmitted := Nat.pos_of_ne_zero hne
      have hmul : c.relay.totalBundlesIncluded * 100
          ≤ c.relay.totalBundlesSubmitted * 100 := Nat.mul_le_mul_right _ hBound
      calc c.relay.totalBundlesIncluded * 100 / c.relay.totalBundlesSubmitted
          ≤ c.relay.totalBundlesSubmitted * 100 / c.relay.totalBundlesSubmitted :=
            Nat.div_le_div_right hmul
        _ ≤ 100 := by
            rw [Nat.mul_comm, Nat.mul_div_assoc 100 (Nat.dvd_refl _)]
            simp [Nat.div_self hpos]
  · intro ctx bh tb s1 hok
    obtain ⟨-, -, -, hs1⟩ := submitBundle_ok hok
    subst hs1
    exact ⟨rfl, rfl⟩
  · intro ctx bh s1 hok
    obtain ⟨-, hts, hinc, hs1⟩ := markIncluded_ok hok
    subst hs1
    exact ⟨rfl, rfl, hts, hinc⟩

/-- The deployed protocol after the router submitted bundle 9 for
block 100. -/
def compsR : Comps :=
  commit comps0 (exec cfg0 ctxRouter (Op.submitBundle 9 100) w0 comps0).2

/-- Witness for C10: after one submission and no inclusions the
counters satisfy the bound and the rate is within [0,100]. -/
theorem c10_inclusion_rate_bounded_witness :
    compsR.relay.totalBundlesIncluded ≤ compsR.relay.totalBundlesSubmitted ∧
    PrivateRelay.getInclusionRate compsR.relay ≤ 100 :=
  have hreach : Reach cfg0 compsR :=
    Reach.step ctxRouter (Op.submitBundle 9 100) w0
      (exec cfg0 ctxRouter (Op.submitBundle 9 100) w0 comps0).1
      (Reach.init 1 6 1 10 1 10 1 1 10) rfl
  ⟨(c10_inclusion_rate_bounded cfg0 compsR hreach).1,
   (c10_inclusion_rate_bounded cfg0 compsR hreach).2.1⟩
